import Mathlib

/-!
Shallow embedding of the `network_stats` Express server (`server.js`):
the reference-id generator, the client-IP / network-header derivation and
the diagnostics submit/retrieve endpoints, together with theorems checking
the specification's claims against this embedding.

Modelling conventions:
* JSON values are the inductive `Json`; JavaScript truthiness and `typeof`
  are modelled explicitly (`jsTruthy`, `jsTypeof`).  Numbers are modelled
  as integers: no claim depends on float semantics, only on truthiness.
* The profiles directory is modelled as an association list from reference
  id to record; `fs.writeFile` of `JSON.stringify(record)` followed by
  `JSON.parse` on read is modelled as storing the record itself (JSON
  serialisation of a JSON-valued record is lossless).
* `Math.floor(Math.random() * chars.length)` is modelled by an arbitrary
  draw function `Nat → Nat`; the RNG contract (the draw is `< chars.length`)
  becomes an explicit hypothesis where a theorem needs it.
* Node lowercases incoming header names and keeps one entry per name, so a
  request's header list is keyed by lowercase names, unique where stated.
-/

namespace NetworkStats

/-- A JSON value as delivered by `express.json()` (the request body). -/
inductive Json where
  | null
  | bool (b : Bool)
  | num (n : Int)
  | str (s : String)
  | arr (items : List Json)
  | obj (fields : List (String × Json))

/-- JavaScript `typeof` restricted to JSON values: `typeof null`,
`typeof []` and `typeof {}` are all `"object"`. -/
def jsTypeof : Json → String
  | .null => "object"
  | .bool _ => "boolean"
  | .num _ => "number"
  | .str _ => "string"
  | .arr _ => "object"
  | .obj _ => "object"

/-- JavaScript truthiness of a JSON value (`null`, `false`, `0` and `""`
are falsy; every array and object is truthy). -/
def jsTruthy : Json → Bool
  | .null => false
  | .bool b => b
  | .num n => n != 0
  | .str s => s != ""
  | .arr _ => true
  | .obj _ => true

/-- The validation guard of `POST /api/diagnostics`:
`!diagnosticsData || typeof diagnosticsData !== 'object'`. -/
def invalidDiagnostics (d : Json) : Bool :=
  !jsTruthy d || jsTypeof d != "object"

/-- Inbound request context: lowercased header name/value pairs, the
Express `req.ip`, the socket's `req.connection.remoteAddress` and the
parsed JSON body. -/
structure Request where
  headers : List (String × String)
  ip : Option String
  remoteAddress : Option String
  body : Json

/-- Express `req.get(name)` for a lowercase header name. -/
def Request.get (req : Request) (name : String) : Option String :=
  req.headers.lookup name

/-- Truthiness of a string-or-undefined JavaScript value: `undefined` and
`""` are falsy. -/
def strTruthy : Option String → Bool
  | none => false
  | some s => s != ""

/-- JavaScript `a || b` on string-or-undefined values. -/
def jsOr (a b : Option String) : Option String :=
  if strTruthy a then a else b

/-- Whitespace for the purposes of `String.prototype.trim` (the claims only
ever exercise spaces). -/
def isJsSpace (c : Char) : Bool :=
  c = ' ' || c = '\t' || c = '\n' || c = '\r'

/-- JavaScript `s.trim()`. -/
def jsTrim (s : String) : String :=
  String.mk (((s.data.dropWhile isJsSpace).reverse.dropWhile isJsSpace).reverse)

/-- JavaScript `s.split(sep)[0]`: the prefix of `s` before the first
occurrence of `sep` (the whole string when `sep` does not occur). -/
def jsSplitFirst (s : String) (sep : Char) : String :=
  String.mk (s.data.takeWhile (fun c => c != sep))

/-- JavaScript `name.startsWith('x-')`. -/
def startsWithXDash (name : String) : Bool :=
  match name.data with
  | 'x' :: '-' :: _ => true
  | _ => false

/-! ### Reference id generation (`generateReferenceId`) -/

/-- The generator's alphabet: `const chars = 'ABCDEFGHJKMNPQRSTUVWXYZ23456789'`. -/
def referenceChars : String := "ABCDEFGHJKMNPQRSTUVWXYZ23456789"

/-- JavaScript `s.charAt(i)`: the one-character string at index `i`, or the
empty string out of range. -/
def jsCharAt (s : String) (i : Nat) : String :=
  if h : i < s.data.length then String.mk [s.data.get ⟨i, h⟩] else ""

/-- One 5-character group of `generateReferenceId`: the inner
`for (j…) group += chars.charAt(Math.floor(Math.random() * chars.length))`
loop, with `r` giving the successive random draws of attempt-local index
`i * 5 + j`. -/
def mkGroup (r : Nat → Nat) (i : Nat) : String :=
  (List.range 5).foldl (fun g j => g ++ jsCharAt referenceChars (r (i * 5 + j))) ""

/-- JavaScript `groups.join('-')`. -/
def joinDash : List String → String
  | [] => ""
  | g :: gs => gs.foldl (fun acc h => acc ++ "-" ++ h) g

/-- `generateReferenceId()`: three 5-character groups joined by hyphens,
each character drawn by `r`. -/
def generateReferenceId (r : Nat → Nat) : String :=
  joinDash ((List.range 3).map (mkGroup r))

/-! ### The store and the collision-checked generator -/

/-- A persisted submission record (the object written to
`profiles/<id>.json`). -/
structure SubmissionRecord where
  referenceId : String
  submittedAt : String
  clientIp : Option String
  userAgent : Option String
  networkHeaders : List (String × String)
  diagnostics : Json

/-- The profiles directory: one record per reference id. -/
abbrev Store := List (String × SubmissionRecord)

/-- `isIdUnique(id)`: no file `profiles/<id>.json` exists. -/
def isIdUnique (store : Store) (id : String) : Bool :=
  (store.lookup id).isNone

/-- The `do { id = generateReferenceId(); attempts++ } while
(!(await isIdUnique(id)) && attempts < maxAttempts)` loop of
`generateUniqueReferenceId`, with `maxAttempts = 10` inlined.  `n` counts
the attempts already made and `ex id` models `!(await isIdUnique(id))`
(an existence check).  Returns `(attempts, id)` at loop exit.  The `fuel`
argument only drives structural recursion; the initial call passes `10`,
and for `fuel = 0` (only reachable with `n ≥ 9`, where the real loop's
guard `attempts < 10` is already false) the branch agrees with the
guard-false exit. -/
def genLoop (gen : Nat → String) (ex : String → Bool) : Nat → Nat → Nat × String
  | n, 0 => (n + 1, gen n)
  | n, fuel + 1 =>
      if ex (gen n) && decide (n + 1 < 10) then genLoop gen ex (n + 1) fuel
      else (n + 1, gen n)

/-- `generateUniqueReferenceId()` against a store, with `r n` supplying the
random draws of attempt `n`: loops `generateReferenceId` against
`isIdUnique`, then `if (attempts >= maxAttempts) throw new
Error('Failed to generate unique reference ID')`. -/
def generateUniqueReferenceId (r : Nat → Nat → Nat) (store : Store) :
    Except String String :=
  let res := genLoop (fun n => generateReferenceId (r n))
    (fun id => !isIdUnique store id) 0 10
  if 10 ≤ res.1 then .error "Failed to generate unique reference ID"
  else .ok res.2

/-! ### Client IP and network header derivation -/

/-- The `req.get('x-forwarded-for')?.split(',')[0]?.trim()` step. -/
def xffFirst (req : Request) : Option String :=
  (req.get "x-forwarded-for").map (fun s => jsTrim (jsSplitFirst s ','))

/-- The `realClientIp` chain of `POST /api/diagnostics`:
`cf-connecting-ip || xff-first || x-real-ip || true-client-ip || req.ip ||
req.connection.remoteAddress`. -/
def realClientIp (req : Request) : Option String :=
  jsOr (req.get "cf-connecting-ip")
    (jsOr (xffFirst req)
      (jsOr (req.get "x-real-ip")
        (jsOr (req.get "true-client-ip")
          (jsOr req.ip req.remoteAddress))))

/-- The combined allow-list of `extractNetworkHeaders` (proxy, Cloudflare,
load-balancer, CDN and other headers, in the order the code concatenates
them). -/
def allowedHeaders : List String :=
  ["x-forwarded-for", "x-forwarded-proto", "x-forwarded-host",
   "x-forwarded-port", "x-real-ip", "x-client-ip", "true-client-ip",
   "forwarded",
   "cf-connecting-ip", "cf-ipcountry", "cf-ray", "cf-visitor",
   "cf-request-id", "cf-connecting-ipv6",
   "x-azure-clientip", "x-azure-socketip", "x-arr-log-id", "x-arr-ssl",
   "via", "x-cdn", "x-cache", "x-cache-hits", "x-served-by", "x-timer",
   "x-edge-location",
   "accept-encoding", "accept-language", "connection", "host", "referer",
   "origin"]

/-- One step of `extractNetworkHeaders`' first loop:
`const value = req.get(headerName); if (value) headers[headerName] = value`. -/
def allowStep (req : Request) (hs : List (String × String)) (name : String) :
    List (String × String) :=
  match req.get name with
  | some v => if v != "" then hs ++ [(name, v)] else hs
  | none => hs

/-- One step of `extractNetworkHeaders`' second loop:
`if (headerName.startsWith('x-') && !headers[headerName])
headers[headerName] = req.headers[headerName]`. -/
def xStep (hs : List (String × String)) (kv : String × String) :
    List (String × String) :=
  if startsWithXDash kv.1 && !strTruthy (hs.lookup kv.1) then hs ++ [kv]
  else hs

/-- `extractNetworkHeaders(req)`: first every allow-listed header whose
value is truthy, then every header whose name starts with `x-` and is not
yet present with a truthy value, in request-header order. -/
def extractNetworkHeaders (req : Request) : List (String × String) :=
  req.headers.foldl xStep (allowedHeaders.foldl (allowStep req) [])

/-! ### The HTTP endpoints -/

/-- Outcome of `POST /api/diagnostics`. -/
inductive SubmitResult where
  | validationError (msg : String)
  | storageFailure (msg : String)
  | success (referenceId : String)
deriving DecidableEq

/-- The `dataToStore` object literal of `POST /api/diagnostics`: reference
id, server timestamp, derived client IP, user agent, captured network
headers and the verbatim payload. -/
def mkRecord (now : String) (req : Request) (referenceId : String) :
    SubmissionRecord :=
  { referenceId := referenceId
    submittedAt := now
    clientIp := realClientIp req
    userAgent := req.get "user-agent"
    networkHeaders := extractNetworkHeaders req
    diagnostics := req.body }

/-- `POST /api/diagnostics`: validate the body, obtain a unique reference
id, build the record and persist it keyed by the id.  `r` supplies the
random draws and `now` the server clock's ISO timestamp. -/
def submit (r : Nat → Nat → Nat) (now : String) (req : Request)
    (store : Store) : SubmitResult × Store :=
  if invalidDiagnostics req.body then
    (.validationError "Invalid diagnostics data", store)
  else
    match generateUniqueReferenceId r store with
    | .error msg => (.storageFailure msg, store)
    | .ok referenceId =>
        (.success referenceId, (referenceId, mkRecord now req referenceId) :: store)

/-- The id-format regex of `GET /api/diagnostics/:id`:
`/^[A-Z0-9]{5}-[A-Z0-9]{5}-[A-Z0-9]{5}$/` as a positional check. -/
def isUpperAlnum (c : Char) : Bool :=
  c.isUpper || c.isDigit

/-- Character-level form of `^[A-Z0-9]{5}-[A-Z0-9]{5}-[A-Z0-9]{5}$`:
exactly seventeen characters, hyphens at positions 5 and 11, uppercase
alphanumerics elsewhere. -/
def validIdChars : List Char → Bool
  | [a1, a2, a3, a4, a5, d1, b1, b2, b3, b4, b5, d2, c1, c2, c3, c4, c5] =>
      d1 = '-' && d2 = '-' &&
      [a1, a2, a3, a4, a5, b1, b2, b3, b4, b5,
       c1, c2, c3, c4, c5].all isUpperAlnum
  | _ => false

/-- Whether `id` matches `^[A-Z0-9]{5}-[A-Z0-9]{5}-[A-Z0-9]{5}$`. -/
def validIdFormat (id : String) : Bool :=
  validIdChars id.data

/-- Outcome of `GET /api/diagnostics/:id`. -/
inductive RetrieveResult where
  | formatError
  | notFound
  | ok (record : SubmissionRecord)

/-- `GET /api/diagnostics/:id`: reject malformed ids (400), report missing
records (404), otherwise return the stored record. -/
def retrieve (store : Store) (id : String) : RetrieveResult :=
  if !validIdFormat id then .formatError
  else
    match store.lookup id with
    | none => .notFound
    | some record => .ok record

/-- `GET /api/diagnostics/:id` as a state transformer, making explicit
that retrieval leaves the store untouched. -/
def retrieveSt (store : Store) (id : String) : RetrieveResult × Store :=
  (retrieve store id, store)

/-! ## Helper lemmas -/

@[simp]
lemma data_mk (l : List Char) : (String.mk l).data = l := rfl

@[simp]
lemma data_append (s t : String) : (s ++ t).data = s.data ++ t.data := by
  cases s; cases t; rfl

/-- Association-list lookup distributes over append. -/
lemma lookup_append {α β : Type} [BEq α] (l₁ l₂ : List (α × β)) (a : α) :
    (l₁ ++ l₂).lookup a = ((l₁.lookup a).or (l₂.lookup a)) := by
  induction l₁ with
  | nil => simp [List.lookup]
  | cons kv l₁ ih =>
      cases hb : a == kv.1 with
      | true => simp [List.lookup, hb]
      | false => simp [List.lookup, hb, ih]

/-- A lookup hit is a member of the association list. -/
lemma lookup_mem {α β : Type} [BEq α] [LawfulBEq α] {l : List (α × β)}
    {a : α} {b : β} (h : l.lookup a = some b) : (a, b) ∈ l := by
  induction l with
  | nil => simp [List.lookup] at h
  | cons kv l ih =>
      rw [List.lookup] at h
      cases hb : a == kv.1 with
      | true =>
          rw [hb] at h
          have := eq_of_beq hb
          cases kv with
          | mk k v =>
              simp only [Option.some.injEq] at h
              simp_all
      | false => simp only [hb] at h; exact List.mem_cons_of_mem _ (ih h)

/-- Lookup misses exactly the keys that are absent. -/
lemma lookup_eq_none_iff {α β : Type} [BEq α] [LawfulBEq α]
    (l : List (α × β)) (a : α) :
    l.lookup a = none ↔ a ∉ l.map Prod.fst := by
  induction l with
  | nil => simp [List.lookup]
  | cons kv l ih =>
      rw [List.lookup]
      cases hb : a == kv.1 with
      | true => simp [eq_of_beq hb]
      | false =>
          have : a ≠ kv.1 := fun he => by simp [he] at hb
          simp [ih, this]

/-- With unique keys, membership determines the lookup. -/
lemma lookup_of_mem_nodup {α β : Type} [BEq α] [LawfulBEq α]
    {l : List (α × β)} (nd : (l.map Prod.fst).Nodup) {a : α} {b : β}
    (h : (a, b) ∈ l) : l.lookup a = some b := by
  induction l with
  | nil => simp at h
  | cons kv l ih =>
      simp only [List.map_cons, List.nodup_cons] at nd
      rcases List.mem_cons.mp h with he | hm
      · rw [← he, List.lookup, beq_self_eq_true]
      · have hne : a ≠ kv.1 := by
          intro he'
          exact nd.1 (he' ▸ List.mem_map_of_mem Prod.fst hm)
        rw [List.lookup, beq_false_of_ne hne]
        exact ih nd.2 hm

/-! ### Properties of the retry loop -/

/-- The loop always exits with the candidate of some attempt `m ≥ n`,
having made `m + 1` attempts. -/
lemma genLoop_shape (gen : Nat → String) (ex : String → Bool) :
    ∀ fuel n, ∃ m, n ≤ m ∧ genLoop gen ex n fuel = (m + 1, gen m) := by
  intro fuel
  induction fuel with
  | zero => intro n; exact ⟨n, le_refl n, rfl⟩
  | succ fuel ih =>
      intro n
      by_cases hc : (ex (gen n) && decide (n + 1 < 10)) = true
      · obtain ⟨m, hm, heq⟩ := ih (n + 1)
        exact ⟨m, by omega, by rw [genLoop, if_pos hc]; exact heq⟩
      · exact ⟨n, le_refl n, by rw [genLoop, if_neg hc]⟩

/-- If the loop exits within the ceiling, the returned candidate passed the
existence check (reachable configurations have `10 ≤ n + fuel`). -/
lemma genLoop_lt_not_ex (gen : Nat → String) (ex : String → Bool) :
    ∀ fuel n, 10 ≤ n + fuel → (genLoop gen ex n fuel).1 < 10 →
      ex (genLoop gen ex n fuel).2 = false := by
  intro fuel
  induction fuel with
  | zero =>
      intro n h10 hlt
      rw [genLoop] at hlt
      simp only at hlt
      omega
  | succ fuel ih =>
      intro n h10 hlt
      by_cases hc : (ex (gen n) && decide (n + 1 < 10)) = true
      · rw [genLoop, if_pos hc] at hlt ⊢
        exact ih (n + 1) (by omega) hlt
      · rw [genLoop, if_neg hc] at hlt ⊢
        simp only at hlt
        simp only [Bool.and_eq_true, decide_eq_true_eq, not_and] at hc
        cases hex : ex (gen n) with
        | false => rfl
        | true => exact absurd hlt (hc hex)

/-- The loop exceeds the ceiling exactly when the candidates of the first
nine attempts all collide (the tenth candidate is never consulted). -/
lemma genLoop_exhaust_iff (gen : Nat → String) (ex : String → Bool) :
    ∀ fuel n, n + fuel = 10 →
      (10 ≤ (genLoop gen ex n fuel).1 ↔
        ∀ k, n ≤ k → k < 9 → ex (gen k) = true) := by
  intro fuel
  induction fuel with
  | zero =>
      intro n h10
      rw [genLoop]
      simp only
      constructor
      · intro _ k hk hk9; omega
      · intro _; omega
  | succ fuel ih =>
      intro n h10
      by_cases hc : (ex (gen n) && decide (n + 1 < 10)) = true
      · rw [genLoop, if_pos hc, ih (n + 1) (by omega)]
        simp only [Bool.and_eq_true, decide_eq_true_eq] at hc
        constructor
        · intro h k hk hk9
          rcases Nat.eq_or_lt_of_le hk with he | hlt
          · exact he ▸ hc.1
          · exact h k hlt hk9
        · intro h k hk hk9; exact h k (by omega) hk9
      · rw [genLoop, if_neg hc]
        simp only
        simp only [Bool.and_eq_true, decide_eq_true_eq, not_and] at hc
        constructor
        · intro h k hk hk9
          omega
        · intro h
          by_contra hlt
          have hn9 : n < 9 := by omega
          have := h n (le_refl n) hn9
          exact absurd (by omega : n + 1 < 10) (hc this)

/-- A successfully returned id is the candidate of some attempt and is
unique in the store at the time of the check. -/
lemma generateUnique_ok (r : Nat → Nat → Nat) (store : Store) (id : String)
    (h : generateUniqueReferenceId r store = .ok id) :
    (∃ n, id = generateReferenceId (r n)) ∧ isIdUnique store id = true := by
  unfold generateUniqueReferenceId at h
  by_cases h10 : 10 ≤ (genLoop (fun n => generateReferenceId (r n))
      (fun id => !isIdUnique store id) 0 10).1
  · rw [if_pos h10] at h; exact absurd h (by simp)
  · rw [if_neg h10] at h
    simp only [Except.ok.injEq] at h
    obtain ⟨m, _, heq⟩ := genLoop_shape (fun n => generateReferenceId (r n))
      (fun id => !isIdUnique store id) 10 0
    have hnx := genLoop_lt_not_ex (fun n => generateReferenceId (r n))
      (fun id => !isIdUnique store id) 10 0 (by omega) (by omega)
    constructor
    · exact ⟨m, by rw [← h, heq]⟩
    · rw [← h]
      simpa using hnx

/-! ### Shape of generated identifiers -/

lemma jsCharAt_of_lt (s : String) (i : Nat) (h : i < s.data.length) :
    jsCharAt s i = String.mk [s.data.get ⟨i, h⟩] := dif_pos h

/-- Each group is five characters drawn from the alphabet. -/
lemma mkGroup_data (r : Nat → Nat) (i : Nat)
    (h : ∀ j, j < 5 → r (i * 5 + j) < referenceChars.data.length) :
    ∃ c1 c2 c3 c4 c5, (mkGroup r i).data = [c1, c2, c3, c4, c5] ∧
      c1 ∈ referenceChars.data ∧ c2 ∈ referenceChars.data ∧
      c3 ∈ referenceChars.data ∧ c4 ∈ referenceChars.data ∧
      c5 ∈ referenceChars.data := by
  have h0 := h 0 (by omega)
  have h1 := h 1 (by omega)
  have h2 := h 2 (by omega)
  have h3 := h 3 (by omega)
  have h4 := h 4 (by omega)
  refine ⟨_, _, _, _, _, ?_, List.get_mem _ _ h0, List.get_mem _ _ h1,
    List.get_mem _ _ h2, List.get_mem _ _ h3, List.get_mem _ _ h4⟩
  show (mkGroup r i).data =
    [referenceChars.data.get ⟨r (i * 5 + 0), h0⟩,
     referenceChars.data.get ⟨r (i * 5 + 1), h1⟩,
     referenceChars.data.get ⟨r (i * 5 + 2), h2⟩,
     referenceChars.data.get ⟨r (i * 5 + 3), h3⟩,
     referenceChars.data.get ⟨r (i * 5 + 4), h4⟩]
  have hr : List.range 5 = [0, 1, 2, 3, 4] := rfl
  rw [mkGroup, hr]
  simp only [List.foldl]
  rw [jsCharAt_of_lt _ _ h0, jsCharAt_of_lt _ _ h1, jsCharAt_of_lt _ _ h2,
    jsCharAt_of_lt _ _ h3, jsCharAt_of_lt _ _ h4]
  simp

/-- The full identifier is three such groups joined by hyphens. -/
lemma generateReferenceId_data (r : Nat → Nat)
    (h : ∀ k, k < 15 → r k < referenceChars.data.length) :
    ∃ a1 a2 a3 a4 a5 b1 b2 b3 b4 b5 c1 c2 c3 c4 c5 : Char,
      (generateReferenceId r).data =
        [a1, a2, a3, a4, a5, '-', b1, b2, b3, b4, b5, '-',
         c1, c2, c3, c4, c5] ∧
      ∀ c ∈ [a1, a2, a3, a4, a5, b1, b2, b3, b4, b5, c1, c2, c3, c4, c5],
        c ∈ referenceChars.data := by
  obtain ⟨a1, a2, a3, a4, a5, e0, m01, m02, m03, m04, m05⟩ :=
    mkGroup_data r 0 (fun j hj => h (0 * 5 + j) (by omega))
  obtain ⟨b1, b2, b3, b4, b5, e1, m11, m12, m13, m14, m15⟩ :=
    mkGroup_data r 1 (fun j hj => h (1 * 5 + j) (by omega))
  obtain ⟨c1, c2, c3, c4, c5, e2, m21, m22, m23, m24, m25⟩ :=
    mkGroup_data r 2 (fun j hj => h (2 * 5 + j) (by omega))
  refine ⟨a1, a2, a3, a4, a5, b1, b2, b3, b4, b5, c1, c2, c3, c4, c5, ?_, ?_⟩
  · have hmap : (List.range 3).map (mkGroup r) =
        [mkGroup r 0, mkGroup r 1, mkGroup r 2] := rfl
    rw [generateReferenceId, hmap]
    show (mkGroup r 0 ++ "-" ++ mkGroup r 1 ++ "-" ++ mkGroup r 2).data = _
    simp [e0, e1, e2]
  · intro c hc
    simp only [List.mem_cons, List.not_mem_nil, or_false] at hc
    rcases hc with rfl | rfl | rfl | rfl | rfl | rfl | rfl | rfl | rfl | rfl
      | rfl | rfl | rfl | rfl | rfl <;> assumption

/-- Every character of the alphabet is an unambiguous uppercase letter or
digit. -/
lemma referenceChars_unambiguous :
    ∀ c ∈ referenceChars.data,
      isUpperAlnum c = true ∧ c ∉ (['0', 'O', 'I', '1', 'L'] : List Char) := by
  decide

/-- Evaluation of the format check on an explicit well-shaped character
list. -/
lemma validIdChars_explicit (a1 a2 a3 a4 a5 b1 b2 b3 b4 b5 c1 c2 c3 c4 c5 : Char)
    (h : ∀ c ∈ [a1, a2, a3, a4, a5, b1, b2, b3, b4, b5,
      c1, c2, c3, c4, c5], isUpperAlnum c = true) :
    validIdChars [a1, a2, a3, a4, a5, '-', b1, b2, b3, b4, b5, '-',
      c1, c2, c3, c4, c5] = true := by
  simp only [validIdChars, Bool.and_eq_true, decide_eq_true_eq,
    List.all_eq_true]
  exact ⟨⟨trivial, trivial⟩, h⟩

/-- A generated identifier always matches the retrieval regex. -/
lemma validIdFormat_generateReferenceId (r : Nat → Nat)
    (h : ∀ k, k < 15 → r k < referenceChars.data.length) :
    validIdFormat (generateReferenceId r) = true := by
  obtain ⟨a1, a2, a3, a4, a5, b1, b2, b3, b4, b5, c1, c2, c3, c4, c5,
    hdata, hmem⟩ := generateReferenceId_data r h
  show validIdChars (generateReferenceId r).data = true
  rw [hdata]
  exact validIdChars_explicit _ _ _ _ _ _ _ _ _ _ _ _ _ _ _
    (fun c hc => (referenceChars_unambiguous c (hmem c hc)).1)

/-! ### Membership in the extracted network headers -/

lemma allowStep_none (req : Request) (acc : List (String × String))
    (n : String) (h : req.get n = none) : allowStep req acc n = acc := by
  simp [allowStep, h]

lemma allowStep_some (req : Request) (acc : List (String × String))
    (n w : String) (h : req.get n = some w) :
    allowStep req acc n = if w ≠ "" then acc ++ [(n, w)] else acc := by
  simp only [allowStep, h]
  split <;> split <;> simp_all

/-- Membership after the allow-list loop: a pair is collected exactly when
it was already present or is an allow-listed header with a truthy value. -/
lemma allowStep_foldl_mem (req : Request) (k v : String) :
    ∀ (names : List String) (acc : List (String × String)),
      ((k, v) ∈ names.foldl (allowStep req) acc ↔
        (k, v) ∈ acc ∨ (k ∈ names ∧ req.get k = some v ∧ v ≠ "")) := by
  intro names
  induction names with
  | nil => intro acc; simp
  | cons n ns ih =>
      intro acc
      rw [List.foldl_cons, ih]
      constructor
      · rintro (hmem | ⟨hin, hget, hne⟩)
        · cases hg : req.get n with
          | none =>
              rw [allowStep_none req acc n hg] at hmem
              exact Or.inl hmem
          | some w =>
              rw [allowStep_some req acc n w hg] at hmem
              by_cases hw : w ≠ ""
              · rw [if_pos hw] at hmem
                rcases List.mem_append.mp hmem with h1 | h2
                · exact Or.inl h1
                · simp only [List.mem_singleton, Prod.mk.injEq] at h2
                  obtain ⟨rfl, rfl⟩ := h2
                  exact Or.inr ⟨List.mem_cons_self _ _, hg, hw⟩
              · rw [if_neg hw] at hmem; exact Or.inl hmem
        · exact Or.inr ⟨List.mem_cons_of_mem _ hin, hget, hne⟩
      · rintro (hacc | ⟨hin, hget, hne⟩)
        · left
          cases hg : req.get n with
          | none => rw [allowStep_none req acc n hg]; exact hacc
          | some w =>
              rw [allowStep_some req acc n w hg]
              by_cases hw : w ≠ ""
              · rw [if_pos hw]; exact List.mem_append_left _ hacc
              · rw [if_neg hw]; exact hacc
        · rcases List.mem_cons.mp hin with rfl | hns
          · left
            rw [allowStep_some req acc k v hget, if_pos hne]
            exact List.mem_append_right _ (by simp)
          · exact Or.inr ⟨hns, hget, hne⟩

/-- Membership after the `x-` loop, assuming the request's header names are
unique (Node joins duplicate headers, so this always holds). -/
lemma xStep_foldl_mem (k v : String) :
    ∀ (rest : List (String × String)) (acc : List (String × String)),
      (rest.map Prod.fst).Nodup →
      ((k, v) ∈ rest.foldl xStep acc ↔
        (k, v) ∈ acc ∨ ((k, v) ∈ rest ∧ startsWithXDash k = true ∧
          strTruthy (acc.lookup k) = false)) := by
  intro rest
  induction rest with
  | nil => intro acc _; simp
  | cons kv rest ih =>
      intro acc hnd
      simp only [List.map_cons, List.nodup_cons] at hnd
      rw [List.foldl_cons, ih _ hnd.2]
      have hfst : ∀ {k' v'}, (k', v') ∈ rest → k' ≠ kv.1 := by
        intro k' v' hm he
        exact hnd.1 (he ▸ List.mem_map_of_mem Prod.fst hm)
      by_cases hc : (startsWithXDash kv.1 && !strTruthy (acc.lookup kv.1))
          = true
      · rw [xStep, if_pos hc]
        simp only [Bool.and_eq_true, Bool.not_eq_true'] at hc
        have hlk : ∀ {k'}, k' ≠ kv.1 →
            (acc ++ [kv]).lookup k' = acc.lookup k' := by
          intro k' hne
          rw [lookup_append, List.lookup, beq_false_of_ne hne,
            List.lookup]
          cases acc.lookup k' <;> rfl
        constructor
        · rintro (hmem | ⟨hrest, hx, htr⟩)
          · rcases List.mem_append.mp hmem with h1 | h2
            · exact Or.inl h1
            · simp only [List.mem_singleton] at h2
              have hk : k = kv.1 := congrArg Prod.fst h2
              refine Or.inr ⟨?_, ?_, ?_⟩
              · rw [h2]; exact List.mem_cons_self _ _
              · rw [hk]; exact hc.1
              · rw [hk]; exact hc.2
          · have hne := hfst hrest
            rw [hlk hne] at htr
            exact Or.inr ⟨List.mem_cons_of_mem _ hrest, hx, htr⟩
        · rintro (hacc | ⟨hin, hx, htr⟩)
          · exact Or.inl (List.mem_append_left _ hacc)
          · rcases List.mem_cons.mp hin with he | hrest
            · exact Or.inl (List.mem_append_right _ (by simp [he]))
            · have hne := hfst hrest
              rw [← hlk hne] at htr
              exact Or.inr ⟨hrest, hx, htr⟩
      · rw [xStep, if_neg hc]
        simp only [Bool.and_eq_true, Bool.not_eq_true', not_and] at hc
        constructor
        · rintro (hacc | ⟨hrest, hx, htr⟩)
          · exact Or.inl hacc
          · exact Or.inr ⟨List.mem_cons_of_mem _ hrest, hx, htr⟩
        · rintro (hacc | ⟨hin, hx, htr⟩)
          · exact Or.inl hacc
          · rcases List.mem_cons.mp hin with he | hrest
            · exfalso
              have hk : k = kv.1 := congrArg Prod.fst he
              rw [hk] at hx htr
              exact absurd htr (by simp [hc hx])
            · exact Or.inr ⟨hrest, hx, htr⟩

/-! ### Endpoint unfolding lemmas -/

lemma submit_invalid (r : Nat → Nat → Nat) (now : String) (req : Request)
    (store : Store) (h : invalidDiagnostics req.body = true) :
    submit r now req store = (.validationError "Invalid diagnostics data", store) := by
  rw [submit, if_pos h]

lemma submit_genError (r : Nat → Nat → Nat) (now : String) (req : Request)
    (store : Store) (msg : String)
    (hv : invalidDiagnostics req.body = false)
    (hg : generateUniqueReferenceId r store = .error msg) :
    submit r now req store = (.storageFailure msg, store) := by
  rw [submit, if_neg (by simp [hv]), hg]

lemma submit_ok (r : Nat → Nat → Nat) (now : String) (req : Request)
    (store : Store) (rid : String)
    (hv : invalidDiagnostics req.body = false)
    (hg : generateUniqueReferenceId r store = .ok rid) :
    submit r now req store =
      (.success rid, (rid, mkRecord now req rid) :: store) := by
  rw [submit, if_neg (by simp [hv]), hg]

/-- An id is truthy in the or-chain exactly when one side is. -/
lemma strTruthy_jsOr (a b : Option String) :
    strTruthy (jsOr a b) = (strTruthy a || strTruthy b) := by
  rw [jsOr]
  by_cases h : strTruthy a = true
  · rw [if_pos h, h]; simp
  · rw [if_neg h]
    have : strTruthy a = false := by
      cases hsa : strTruthy a
      · rfl
      · exact absurd hsa h
    rw [this]; simp

/-- A truthy string-or-undefined value is never the empty string. -/
lemma strTruthy_ne_some_empty {o : Option String} (h : strTruthy o = true) :
    o ≠ some "" := by
  cases o with
  | none => simp
  | some s =>
      intro he
      rw [he] at h
      simp [strTruthy] at h

/-- A falsy left operand makes the or-chain return the right operand. -/
lemma jsOr_falsy {a : Option String} (h : strTruthy a = false)
    (b : Option String) : jsOr a b = b := by
  rw [jsOr, h]
  simp

/-! ## Claim theorems -/

/-- C1: evaluating `generateUniqueReferenceId` at an existence check that
collides on the candidates of attempts 1–9 but not on the candidate of
attempt 10 (draws yield `AAAAA-AAAAA-AAAAA`, which is in the store, for the
first nine attempts and the fresh `BBBBB-BBBBB-BBBBB` on the tenth): the
tenth candidate is unique and within the 10-attempt ceiling, yet the code
throws `Failed to generate unique reference ID` instead of returning it,
because `attempts >= maxAttempts` fires after the tenth iteration
regardless of its outcome. -/
theorem C1_tenth_attempt_discarded :
    generateUniqueReferenceId (fun n _ => if n < 9 then 0 else 1)
      [("AAAAA-AAAAA-AAAAA", ⟨"AAAAA-AAAAA-AAAAA",
        "2024-01-01T00:00:00.000Z", none, none, [], Json.obj []⟩)]
      = .error "Failed to generate unique reference ID"
    ∧ generateReferenceId ((fun n _ => if n < 9 then (0 : Nat) else 1) 9)
      = "BBBBB-BBBBB-BBBBB"
    ∧ isIdUnique [("AAAAA-AAAAA-AAAAA", ⟨"AAAAA-AAAAA-AAAAA",
        "2024-01-01T00:00:00.000Z", none, none, [], Json.obj []⟩)]
      "BBBBB-BBBBB-BBBBB" = true :=
  ⟨rfl, rfl, rfl⟩

/-- C2 counterexample: `submit` of a JSON array (`[]`) is not rejected —
`typeof [] === 'object'` and arrays are truthy, so the array passes
validation, a record is created and stored. -/
theorem C2_array_accepted :
    (submit (fun _ _ => 0) "2024-01-01T00:00:00.000Z"
      ⟨[], none, some "127.0.0.1", Json.arr []⟩ []).1
      = SubmitResult.success "AAAAA-AAAAA-AAAAA"
    ∧ ((submit (fun _ _ => 0) "2024-01-01T00:00:00.000Z"
      ⟨[], none, some "127.0.0.1", Json.arr []⟩ []).2.lookup
      "AAAAA-AAAAA-AAAAA").isSome = true :=
  ⟨rfl, rfl⟩

/-- C2 amended: `submit` rejects with the ValidationError
`Invalid diagnostics data`, creating no record and leaving the store
untouched, exactly those payloads that are JavaScript-falsy (`null`,
`false`, `0`, `""`) or whose `typeof` is not `object` (strings, numbers,
booleans); JSON arrays, however, pass the check like objects do. -/
theorem C2_validation (r : Nat → Nat → Nat) (now : String) (req : Request)
    (store : Store) (h : invalidDiagnostics req.body = true) :
    submit r now req store
      = (.validationError "Invalid diagnostics data", store)
    ∧ (∀ d, invalidDiagnostics d = true ↔
        (jsTruthy d = false ∨ jsTypeof d ≠ "object"))
    ∧ invalidDiagnostics Json.null = true
    ∧ (∀ s, invalidDiagnostics (Json.str s) = true)
    ∧ (∀ n, invalidDiagnostics (Json.num n) = true)
    ∧ (∀ l, invalidDiagnostics (Json.arr l) = false)
    ∧ (∀ f, invalidDiagnostics (Json.obj f) = false) := by
  refine ⟨submit_invalid r now req store h, ?_, by decide,
    fun s => by simp [invalidDiagnostics, jsTypeof],
    fun n => by simp [invalidDiagnostics, jsTypeof],
    fun l => by simp [invalidDiagnostics, jsTruthy, jsTypeof],
    fun f => by simp [invalidDiagnostics, jsTruthy, jsTypeof]⟩
  intro d
  rw [invalidDiagnostics]
  simp [Bool.or_eq_true, Bool.not_eq_true', bne_iff_ne]

/-- C2 witness: a string payload is rejected without touching the store. -/
theorem C2_validation_witness :
    submit (fun _ _ => 0) "2024-01-01T00:00:00.000Z"
      ⟨[], none, some "127.0.0.1", Json.str "string"⟩ []
      = (SubmitResult.validationError "Invalid diagnostics data", []) :=
  (C2_validation (fun _ _ => 0) "2024-01-01T00:00:00.000Z"
    ⟨[], none, some "127.0.0.1", Json.str "string"⟩ [] (by decide)).1

/-- C4: `retrieve` fails with FormatError, independently of the store,
exactly on ids that do not match the reference-id pattern (for example
`abc`, `AAAAA-AAAAA-AAAA` and lowercase forms), fails with the distinct
NotFound error exactly on format-valid ids with no record, and a
successful retrieval always returns a stored record, never a default. -/
theorem C4_retrieve_validation :
    (∀ (store : Store) (id : String), validIdFormat id = false →
      retrieve store id = .formatError)
    ∧ (∀ (store : Store) (id : String),
        (retrieve store id = .formatError ↔ validIdFormat id = false))
    ∧ (∀ (store : Store) (id : String),
        (retrieve store id = .notFound ↔
          validIdFormat id = true ∧ store.lookup id = none))
    ∧ (∀ (store : Store) (id : String) (rec : SubmissionRecord),
        retrieve store id = .ok rec → store.lookup id = some rec)
    ∧ RetrieveResult.formatError ≠ RetrieveResult.notFound
    ∧ validIdFormat "abc" = false
    ∧ validIdFormat "AAAAA-AAAAA-AAAA" = false
    ∧ validIdFormat "aaaaa-aaaaa-aaaaa" = false := by
  have hFmt : ∀ (store : Store) (id : String), validIdFormat id = false →
      retrieve store id = .formatError := by
    intro store id h
    rw [retrieve, h]
    rfl
  refine ⟨hFmt, ?_, ?_, ?_, (by intro h; cases h), (by decide),
    (by decide), (by decide)⟩
  · intro store id
    constructor
    · intro h
      cases hv : validIdFormat id with
      | false => rfl
      | true =>
          rw [retrieve, hv] at h
          simp only [Bool.not_true, if_false] at h
          cases hl : store.lookup id with
          | none => rw [hl] at h; exact absurd h (by simp)
          | some rec => rw [hl] at h; exact absurd h (by simp)
    · exact hFmt store id
  · intro store id
    constructor
    · intro h
      cases hv : validIdFormat id with
      | false => rw [hFmt store id hv] at h; exact absurd h (by simp)
      | true =>
          refine ⟨rfl, ?_⟩
          rw [retrieve, hv] at h
          simp only [Bool.not_true, if_false] at h
          cases hl : store.lookup id with
          | none => rfl
          | some rec => rw [hl] at h; exact absurd h (by simp)
    · rintro ⟨hv, hl⟩
      rw [retrieve, hv, hl]
      rfl
  · intro store id rec h
    cases hv : validIdFormat id with
    | false => rw [hFmt store id hv] at h; exact absurd h (by simp)
    | true =>
        rw [retrieve, hv] at h
        simp only [Bool.not_true, if_false] at h
        cases hl : store.lookup id with
        | none => rw [hl] at h; exact absurd h (by simp)
        | some rec' =>
            rw [hl] at h
            rw [if_neg (by simp : ¬(false = true))] at h
            have h2 : RetrieveResult.ok rec' = RetrieveResult.ok rec := h
            exact congrArg some (RetrieveResult.ok.inj h2)

/-- C4 witness: a malformed id is rejected on an empty store, and a
well-formed unknown id yields NotFound. -/
theorem C4_retrieve_validation_witness :
    retrieve [] "abc" = RetrieveResult.formatError
    ∧ retrieve [] "ABCDE-ABCDE-ABCDE" = RetrieveResult.notFound :=
  ⟨C4_retrieve_validation.1 [] "abc" (by decide),
   (C4_retrieve_validation.2.2.1 [] "ABCDE-ABCDE-ABCDE").mpr
     ⟨by decide, rfl⟩⟩

/-- C5: the client IP is derived in priority order — the Cloudflare
connecting-IP header first, then the trimmed leftmost entry of
`x-forwarded-for`, then `x-real-ip`, then `true-client-ip`, then the
transport-level peer address — including the two concrete header
scenarios of the specification. -/
theorem C5_client_ip_priority :
    (∀ (req : Request) (s : String),
      req.get "cf-connecting-ip" = some s → s ≠ "" →
      realClientIp req = some s)
    ∧ (∀ (req : Request) (s : String),
        strTruthy (req.get "cf-connecting-ip") = false →
        req.get "x-forwarded-for" = some s →
        jsTrim (jsSplitFirst s ',') ≠ "" →
        realClientIp req = some (jsTrim (jsSplitFirst s ',')))
    ∧ (∀ req : Request,
        strTruthy (req.get "cf-connecting-ip") = false →
        strTruthy (xffFirst req) = false →
        realClientIp req =
          jsOr (req.get "x-real-ip")
            (jsOr (req.get "true-client-ip")
              (jsOr req.ip req.remoteAddress)))
    ∧ realClientIp ⟨[("cf-connecting-ip", "1.2.3.4"),
        ("x-forwarded-for", "5.6.7.8, 9.9.9.9")], none, some "::1",
        Json.obj []⟩ = some "1.2.3.4"
    ∧ realClientIp ⟨[("x-forwarded-for", "5.6.7.8, 9.9.9.9")], none,
        some "::1", Json.obj []⟩ = some "5.6.7.8" := by
  refine ⟨?_, ?_, ?_, (by decide), (by decide)⟩
  · intro req s hg hs
    rw [realClientIp, hg, jsOr, if_pos (by simp [strTruthy, hs])]
  · intro req s hcf hg hne
    rw [realClientIp, jsOr_falsy hcf]
    have hx : xffFirst req = some (jsTrim (jsSplitFirst s ',')) := by
      rw [xffFirst, hg]
      rfl
    rw [hx, jsOr, if_pos (by simp [strTruthy, hne])]
  · intro req hcf hx
    rw [realClientIp, jsOr_falsy hcf, jsOr_falsy hx]

/-- C5 witness: instantiating the priority statement at a request carrying
only the Cloudflare header. -/
theorem C5_client_ip_priority_witness :
    realClientIp ⟨[("cf-connecting-ip", "9.9.9.9")], none, none,
      Json.obj []⟩ = some "9.9.9.9" :=
  C5_client_ip_priority.1
    ⟨[("cf-connecting-ip", "9.9.9.9")], none, none, Json.obj []⟩
    "9.9.9.9" rfl (by decide)

/-- C7: whenever the random draws respect their `Math.random` contract
(index strictly below the alphabet length), the generated identifier
matches `^[A-Z0-9]{5}-[A-Z0-9]{5}-[A-Z0-9]{5}$`, every non-hyphen
character is drawn from the alphabet, and the alphabet consists only of
uppercase alphanumerics with `0`, `O`, `I`, `1`, `L` excluded. -/
theorem C7_generated_id_format (r : Nat → Nat)
    (h : ∀ k, k < 15 → r k < referenceChars.data.length) :
    validIdFormat (generateReferenceId r) = true
    ∧ (∀ c ∈ (generateReferenceId r).data,
        c = '-' ∨ c ∈ referenceChars.data)
    ∧ (∀ c ∈ referenceChars.data,
        isUpperAlnum c = true ∧
          c ∉ (['0', 'O', 'I', '1', 'L'] : List Char)) := by
  refine ⟨validIdFormat_generateReferenceId r h, ?_,
    referenceChars_unambiguous⟩
  obtain ⟨a1, a2, a3, a4, a5, b1, b2, b3, b4, b5, c1, c2, c3, c4, c5,
    hdata, hmem⟩ := generateReferenceId_data r h
  intro c hc
  rw [hdata] at hc
  simp only [List.mem_cons, List.not_mem_nil, or_false] at hc
  rcases hc with rfl | rfl | rfl | rfl | rfl | rfl | rfl | rfl | rfl | rfl
    | rfl | rfl | rfl | rfl | rfl | rfl | rfl <;>
    first
      | exact Or.inl rfl
      | exact Or.inr (hmem _ (by simp))

/-- C7 witness: the format holds for the identifier generated from the
draws `0, 1, …, 14`. -/
theorem C7_generated_id_format_witness :
    validIdFormat (generateReferenceId (fun k => k)) = true :=
  (C7_generated_id_format (fun k => k) (fun k hk => by
    show k < referenceChars.data.length
    have hlen : referenceChars.data.length = 31 := rfl
    omega)).1

/-- C8 counterexample: the generator's alphabet does not have 32
symbols. -/
theorem C8_alphabet_not_32 : referenceChars.data.length ≠ 32 := by decide

/-- C8 amended: the alphabet has exactly 31 distinct symbols — within the
uppercase letters and digits it keeps precisely those outside
`{0, O, I, 1, L}` (36 − 5 = 31). -/
theorem C8_alphabet_31 :
    referenceChars.data.length = 31
    ∧ referenceChars.data.Nodup
    ∧ (∀ c ∈ referenceChars.data,
        c ∈ "ABCDEFGHIJKLMNOPQRSTUVWXYZ0123456789".data)
    ∧ (∀ c ∈ "ABCDEFGHIJKLMNOPQRSTUVWXYZ0123456789".data,
        (c ∈ referenceChars.data ↔
          c ∉ (['0', 'O', 'I', '1', 'L'] : List Char))) := by
  decide

/-- C10: when no Cloudflare header is truthy and `x-forwarded-for` is
present but its leftmost entry trims to the empty string, the derivation
falls through to `x-real-ip`, `true-client-ip` and the peer address, and
the resulting client IP is not the empty string whenever any of those
later sources is truthy. -/
theorem C10_empty_xff_falls_through (req : Request) (s : String)
    (hcf : strTruthy (req.get "cf-connecting-ip") = false)
    (hxf : req.get "x-forwarded-for" = some s)
    (hemp : jsTrim (jsSplitFirst s ',') = "") :
    realClientIp req =
      jsOr (req.get "x-real-ip")
        (jsOr (req.get "true-client-ip") (jsOr req.ip req.remoteAddress))
    ∧ ((strTruthy (req.get "x-real-ip") = true ∨
        strTruthy (req.get "true-client-ip") = true ∨
        strTruthy req.ip = true ∨ strTruthy req.remoteAddress = true) →
        realClientIp req ≠ some "") := by
  have hx : strTruthy (xffFirst req) = false := by
    rw [xffFirst, hxf]
    simp [strTruthy, hemp]
  have hmain : realClientIp req =
      jsOr (req.get "x-real-ip")
        (jsOr (req.get "true-client-ip")
          (jsOr req.ip req.remoteAddress)) := by
    rw [realClientIp, jsOr_falsy hcf, jsOr_falsy hx]
  refine ⟨hmain, ?_⟩
  intro hsome
  rw [hmain]
  apply strTruthy_ne_some_empty
  rw [strTruthy_jsOr, strTruthy_jsOr, strTruthy_jsOr]
  rcases hsome with h | h | h | h <;> simp [h]

/-- C10 witness: an `x-forwarded-for` whose first entry is only
whitespace falls through to `x-real-ip`. -/
theorem C10_empty_xff_falls_through_witness :
    realClientIp ⟨[("x-forwarded-for", " , 9.9.9.9"),
      ("x-real-ip", "7.7.7.7")], none, none, Json.obj []⟩ ≠ some "" :=
  (C10_empty_xff_falls_through
    ⟨[("x-forwarded-for", " , 9.9.9.9"), ("x-real-ip", "7.7.7.7")],
      none, none, Json.obj []⟩
    " , 9.9.9.9" (by decide) (by decide) (by decide)).2
    (Or.inl (by decide))

/-- C3: a successful `submit` followed by `retrieve` of the returned id,
against the store `submit` produced, yields exactly the stored record,
whose `diagnostics` field equals the payload verbatim. -/
theorem C3_submit_retrieve_round_trip (r : Nat → Nat → Nat)
    (hr : ∀ n k, k < 15 → r n k < referenceChars.data.length)
    (now : String) (req : Request) (store : Store) (id : String)
    (st' : Store) (h : submit r now req store = (.success id, st')) :
    retrieve st' id = .ok (mkRecord now req id)
    ∧ (mkRecord now req id).diagnostics = req.body := by
  by_cases hv : invalidDiagnostics req.body = true
  · rw [submit_invalid r now req store hv] at h
    exact absurd (congrArg Prod.fst h) (by simp)
  · have hv' : invalidDiagnostics req.body = false := by
      cases hvv : invalidDiagnostics req.body
      · rfl
      · exact absurd hvv hv
    cases hg : generateUniqueReferenceId r store with
    | error msg =>
        rw [submit_genError r now req store msg hv' hg] at h
        exact absurd (congrArg Prod.fst h) (by simp)
    | ok rid =>
        rw [submit_ok r now req store rid hv' hg] at h
        have hid : rid = id :=
          SubmitResult.success.inj (congrArg Prod.fst h)
        subst hid
        have h2 : ((rid, mkRecord now req rid) :: store) = st' :=
          congrArg Prod.snd h
        rw [← h2]
        obtain ⟨⟨n, hgen⟩, _⟩ := generateUnique_ok r store rid hg
        have hfmt : validIdFormat rid = true := by
          rw [hgen]
          exact validIdFormat_generateReferenceId (r n)
            (fun k hk => hr n k hk)
        refine ⟨?_, rfl⟩
        rw [retrieve, hfmt]
        simp only [Bool.not_true]
        rw [if_neg (by simp : ¬(false = true))]
        rw [List.lookup, beq_self_eq_true]

/-- C3 witness: round trip on a concrete payload, request and empty
store. -/
theorem C3_submit_retrieve_round_trip_witness :
    retrieve (submit (fun _ k => k) "2024-01-01T00:00:00.000Z"
        ⟨[], none, some "127.0.0.1", Json.obj [("a", Json.num 1)]⟩ []).2
      "ABCDE-FGHJK-MNPQR"
      = .ok (mkRecord "2024-01-01T00:00:00.000Z"
          ⟨[], none, some "127.0.0.1", Json.obj [("a", Json.num 1)]⟩
          "ABCDE-FGHJK-MNPQR")
    ∧ (mkRecord "2024-01-01T00:00:00.000Z"
        ⟨[], none, some "127.0.0.1", Json.obj [("a", Json.num 1)]⟩
        "ABCDE-FGHJK-MNPQR").diagnostics
      = (⟨[], none, some "127.0.0.1",
          Json.obj [("a", Json.num 1)]⟩ : Request).body :=
  C3_submit_retrieve_round_trip (fun _ k => k)
    (fun n k hk => by
      show k < referenceChars.data.length
      have hlen : referenceChars.data.length = 31 := rfl
      omega)
    "2024-01-01T00:00:00.000Z"
    ⟨[], none, some "127.0.0.1", Json.obj [("a", Json.num 1)]⟩ []
    "ABCDE-FGHJK-MNPQR"
    (submit (fun _ k => k) "2024-01-01T00:00:00.000Z"
      ⟨[], none, some "127.0.0.1", Json.obj [("a", Json.num 1)]⟩ []).2
    rfl

/-- C9: persisted records are immutable and never removed: `submit` either
leaves the store unchanged or prepends a single record under a key absent
from the store, so every persisted record survives every operation, and
retrieval never mutates the store, making repeated retrieval return
identical results. -/
theorem C9_append_only (r : Nat → Nat → Nat) (now : String) (req : Request)
    (store : Store) (id : String) (rec : SubmissionRecord)
    (h : store.lookup id = some rec) :
    (submit r now req store).2.lookup id = some rec
    ∧ ((submit r now req store).2 = store ∨
        ∃ newId, (submit r now req store).2 =
            (newId, mkRecord now req newId) :: store ∧
          store.lookup newId = none)
    ∧ (retrieveSt store id).2 = store
    ∧ (retrieveSt ((retrieveSt store id).2) id).1
        = (retrieveSt store id).1 := by
  by_cases hv : invalidDiagnostics req.body = true
  · rw [submit_invalid r now req store hv]
    exact ⟨h, Or.inl rfl, rfl, rfl⟩
  · have hv' : invalidDiagnostics req.body = false := by
      cases hvv : invalidDiagnostics req.body
      · rfl
      · exact absurd hvv hv
    cases hg : generateUniqueReferenceId r store with
    | error msg =>
        rw [submit_genError r now req store msg hv' hg]
        exact ⟨h, Or.inl rfl, rfl, rfl⟩
    | ok rid =>
        rw [submit_ok r now req store rid hv' hg]
        obtain ⟨_, huniq⟩ := generateUnique_ok r store rid hg
        have hnone : store.lookup rid = none := by
          rw [isIdUnique] at huniq
          exact Option.isNone_iff_eq_none.mp huniq
        have hne : id ≠ rid := by
          intro he
          rw [he, hnone] at h
          exact absurd h (by simp)
        refine ⟨?_, Or.inr ⟨rid, rfl, hnone⟩, rfl, rfl⟩
        show List.lookup id ((rid, mkRecord now req rid) :: store)
          = some rec
        rw [List.lookup, beq_false_of_ne hne]
        exact h

/-- C9 witness: a record persisted before a concrete submit is still
retrievable unchanged afterwards. -/
theorem C9_append_only_witness :
    (submit (fun _ _ => 0) "2024-01-01T00:00:00.000Z"
      ⟨[], none, none, Json.obj []⟩
      [("ZZZZZ-ZZZZZ-ZZZZZ", ⟨"ZZZZZ-ZZZZZ-ZZZZZ", "t0", none, none, [],
        Json.obj []⟩)]).2.lookup "ZZZZZ-ZZZZZ-ZZZZZ"
      = some ⟨"ZZZZZ-ZZZZZ-ZZZZZ", "t0", none, none, [], Json.obj []⟩ :=
  (C9_append_only (fun _ _ => 0) "2024-01-01T00:00:00.000Z"
    ⟨[], none, none, Json.obj []⟩
    [("ZZZZZ-ZZZZZ-ZZZZZ", ⟨"ZZZZZ-ZZZZZ-ZZZZZ", "t0", none, none, [],
      Json.obj []⟩)]
    "ZZZZZ-ZZZZZ-ZZZZZ"
    ⟨"ZZZZZ-ZZZZZ-ZZZZZ", "t0", none, none, [], Json.obj []⟩ rfl).1

/-- C6 counterexample: an x-prefixed request header with an empty value is
copied into the mapping with that empty value — the second loop copies
`req.headers[name]` without a truthiness check — so a key can be present
with an empty value. -/
theorem C6_empty_value_captured :
    ("x-empty", "") ∈ extractNetworkHeaders
      ⟨[("x-empty", "")], none, none, Json.obj []⟩ := by decide

/-- C6 amended: with unique request header names, the mapping contains
exactly the present allow-listed headers with non-empty values plus every
present x-prefixed header not so captured (the latter copied even when its
value is empty), each key mapped to its request value; absent headers are
omitted. -/
theorem C6_network_headers (req : Request)
    (hnd : (req.headers.map Prod.fst).Nodup) (k v : String) :
    ((k, v) ∈ extractNetworkHeaders req ↔
      (k, v) ∈ req.headers ∧
        ((k ∈ allowedHeaders ∧ v ≠ "") ∨ startsWithXDash k = true)) := by
  have hget : ∀ w, (req.get k = some w ↔ (k, w) ∈ req.headers) :=
    fun w => ⟨fun hh => lookup_mem hh, fun hh => lookup_of_mem_nodup hnd hh⟩
  have hbase : ∀ w, ((k, w) ∈ allowedHeaders.foldl (allowStep req) [] ↔
      (k ∈ allowedHeaders ∧ req.get k = some w ∧ w ≠ "")) := by
    intro w
    rw [allowStep_foldl_mem]
    simp
  have htr : strTruthy ((allowedHeaders.foldl (allowStep req) []).lookup k)
      = false ↔ ¬(k ∈ allowedHeaders ∧ strTruthy (req.get k) = true) := by
    cases hl : (allowedHeaders.foldl (allowStep req) []).lookup k with
    | none =>
        constructor
        · rintro _ ⟨hA, hT⟩
          cases hgk : req.get k with
          | none => rw [hgk] at hT; exact absurd hT (by simp [strTruthy])
          | some w =>
              rw [hgk] at hT
              have hw : w ≠ "" := by simpa [strTruthy] using hT
              have hmem := (hbase w).mpr ⟨hA, hgk, hw⟩
              rw [lookup_eq_none_iff] at hl
              exact hl (List.mem_map_of_mem Prod.fst hmem)
        · intro _; rfl
    | some w =>
        obtain ⟨hA, hgk, hw⟩ := (hbase w).mp (lookup_mem hl)
        constructor
        · intro hf
          have ht : strTruthy (some w) = true := by simp [strTruthy, hw]
          rw [ht] at hf
          cases hf
        · intro hn
          exfalso
          exact hn ⟨hA, by rw [hgk]; simp [strTruthy, hw]⟩
  rw [extractNetworkHeaders, xStep_foldl_mem k v req.headers
    (allowedHeaders.foldl (allowStep req) []) hnd, hbase v, htr]
  constructor
  · rintro (⟨hA, hg, hne⟩ | ⟨hH, hX, hnT⟩)
    · exact ⟨(hget v).mp hg, Or.inl ⟨hA, hne⟩⟩
    · exact ⟨hH, Or.inr hX⟩
  · rintro ⟨hH, hA | hX⟩
    · exact Or.inl ⟨hA.1, (hget v).mpr hH, hA.2⟩
    · by_cases hAne : k ∈ allowedHeaders ∧ v ≠ ""
      · exact Or.inl ⟨hAne.1, (hget v).mpr hH, hAne.2⟩
      · refine Or.inr ⟨hH, hX, ?_⟩
        rintro ⟨hA, hT⟩
        rw [(hget v).mpr hH] at hT
        have hvne : v ≠ "" := by simpa [strTruthy] using hT
        exact hAne ⟨hA, hvne⟩

/-- C6 witness: an allow-listed header with a non-empty value is captured
on a concrete request. -/
theorem C6_network_headers_witness :
    ("via", "1.1 proxy") ∈ extractNetworkHeaders
      ⟨[("via", "1.1 proxy"), ("x-empty", "")], none, none,
        Json.obj []⟩ :=
  (C6_network_headers ⟨[("via", "1.1 proxy"), ("x-empty", "")], none,
    none, Json.obj []⟩ (by decide) "via" "1.1 proxy").mpr
    ⟨by decide, Or.inl ⟨by decide, by decide⟩⟩

end NetworkStats
